import Mathlib

/-!
Shallow embedding of `src/bench/pauli_from_list_qinfo.py`, a micro-benchmark
that generates random Pauli labels and times the construction and
simplification of an external operator built from them.

Modelling decisions:
* Python's global `random` module after `random.seed(123)` is a deterministic
  stream of draws.  We model the generator state as a structure `PyRandom`
  holding an infinite stream `stream : Nat → Fin 4` (each `random.choices`
  draw from the four-letter population "IXYZ" picks one of four indices) and
  a position `pos`.  Seeding with a seed `s` is modelled by `seedRandom F s`:
  the stream is a function `F` of the seed alone and the position is reset
  to 0.  Every draw consumes one stream element.
* `timeit(stmt, number=m)` runs `stmt` exactly `m` times and returns the
  total elapsed wall-clock seconds.  The elapsed seconds are external
  non-determinism, modelled by an oracle `elapsed : Nat → ℚ` giving the value
  returned by the `i`-th `timeit` call of the run; the `m` executions of the
  statement are recorded as an event trace (`Ev`).
* The external library calls `SparsePauliOp(PauliList(label))` and
  `.simplify()` are opaque: one execution of the timed statement emits a
  `construct` event carrying the label batch it consumes, then a `simplify`
  event.
* Python integers are `Int` where the source can receive any integer
  (`rand_label`); the grid values are the literal naturals of the source.
  Durations are exact rationals `ℚ` (the arithmetic `t * 1000 / number`
  performed on the oracle's value).
-/

/-- State of Python's `random` module: an infinite stream of draws from a
four-element population, fixed at seeding time, plus the current position. -/
structure PyRandom where
  stream : Nat → Fin 4
  pos : Nat

/-- `random.seed s` puts the generator in a state that is a function of the
seed alone: stream `F s`, position 0. -/
def seedRandom (F : Nat → Nat → Fin 4) (s : Nat) : PyRandom :=
  ⟨F s, 0⟩

/-- The population string of `random.choices("IXYZ", k=k)`. -/
def IXYZ : String := "IXYZ"

/-- One draw of `random.choices`: pick the population character indexed by the
current stream element and advance the position. -/
def choiceChar (r : PyRandom) : Char × PyRandom :=
  (IXYZ.toList.getD (r.stream r.pos).val 'I', ⟨r.stream, r.pos + 1⟩)

/-- `random.choices("IXYZ", k=count)`: `count` successive draws, threading the
generator state.  A non-positive `k` in the source yields the empty list,
matching `itertools.repeat(None, k)`. -/
def choices : PyRandom → Nat → List Char × PyRandom
  | r, 0 => ([], r)
  | r, count + 1 =>
    match choiceChar r with
    | (c, r1) =>
      match choices r1 count with
      | (cs, r2) => (c :: cs, r2)

/-- Auxiliary recursion of `rand_label`: build `m` strings of `kk` characters
each, threading the generator state, first string drawn first. -/
def randLabelGo (kk : Nat) : PyRandom → Nat → List String × PyRandom
  | r, 0 => ([], r)
  | r, m + 1 =>
    match choices r kk with
    | (cs, r1) =>
      match randLabelGo kk r1 m with
      | (rest, r2) => (String.mk cs :: rest, r2)

/-- `rand_label(k, n)`: `["".join(random.choices("IXYZ", k=k)) for _ in range(n)]`.
Python `range(n)` of a non-positive `n` is empty and `choices` with a
non-positive `k` returns no characters, so both arguments are `Int` and
converted by `Int.toNat`. -/
def rand_label (r : PyRandom) (k n : Int) : List String × PyRandom :=
  randLabelGo k.toNat r n.toNat

/-- An execution event at the external-library boundary: constructing the
operator representation from a label batch (`SparsePauliOp(PauliList(label))`)
or canonicalizing it (`.simplify()`). -/
inductive Ev where
  | construct (labels : List String)
  | simplify (labels : List String)
deriving DecidableEq

/-- One execution of the timed statement
`lambda: SparsePauliOp(PauliList(label)).simplify()`: construct from the
batch, then simplify. -/
def stmtEvents (labels : List String) : List Ev :=
  [Ev.construct labels, Ev.simplify labels]

/-- `timeit(stmt, number=num)` executes the statement `num` times in
sequence; the trace of library-boundary events it produces. -/
def timeitEvents (labels : List String) : Nat → List Ev
  | 0 => []
  | num + 1 => stmtEvents labels ++ timeitEvents labels num

/-- The repetition count of the source: `number = 20`, overwritten by
`number = 1` when `n >= 10_000`. -/
def number (n : Nat) : Nat :=
  if 10000 ≤ n then 1 else 20

/-- The `k` grid of the source: `(10, 100)`. -/
def ksList : List Nat := [10, 100]

/-- The `n` grid of the source: `(10, 100, 1000, 5000, 10_000, 100_000)`. -/
def nsList : List Nat := [10, 100, 1000, 5000, 10000, 100000]

/-- The nested iteration of `run_benchmarks`: every `(k, n)` combination, `k`
outermost. -/
def gridPairs : List (Nat × Nat) :=
  ksList.bind (fun k => nsList.map (fun n => (k, n)))

/-- The printed line `f'k={k}, n={n}, {t} ms'`, with the duration rendered by
default numeric-to-string formatting. -/
def fmtLine (k n : Nat) (t : ℚ) : String :=
  "k=" ++ toString k ++ ", n=" ++ toString n ++ ", " ++ toString t ++ " ms"

/-- Everything one iteration of the benchmark loop produces for a single grid
combination. -/
structure Trial where
  k : Nat
  n : Nat
  reps : Nat
  labels : List String
  tsec : ℚ
  tms : ℚ
  events : List Ev
  line : String

/-- One grid iteration of the source loop body: generate the batch with
`rand_label(k, n)`, pick the repetition count, run
`timeit(..., number=number)` (its return value `sec` is the oracle-supplied
total elapsed seconds), and derive `t = sec * 1000 / number`.  Returns the
trial record and the advanced generator state. -/
def time_trial (sec : ℚ) (r : PyRandom) (k n : Nat) : Trial × PyRandom :=
  (⟨k, n, number n, (rand_label r k n).1, sec,
    sec * 1000 / (number n : ℚ),
    timeitEvents (rand_label r k n).1 (number n),
    fmtLine k n (sec * 1000 / (number n : ℚ))⟩,
   (rand_label r k n).2)

/-- The benchmark loop over the remaining grid combinations.  `i` is the index
of the next `timeit` call, used to query the elapsed-seconds oracle. -/
def runBench (elapsed : Nat → ℚ) : List (Nat × Nat) → Nat → PyRandom → List Trial
  | [], _, _ => []
  | (k, n) :: rest, i, r =>
    (time_trial (elapsed i) r k n).1 ::
      runBench elapsed rest (i + 1) (time_trial (elapsed i) r k n).2

/-- The observable outcome of `run_benchmarks()`: the returned list
`quantum_info_times`, the lines printed to standard output, and the per-trial
records. -/
structure BenchResult where
  trials : List Trial
  times : List ℚ
  lines : List String

/-- `run_benchmarks()`: iterate the grid, appending each trial's duration to
`quantum_info_times` and printing its line. -/
def run_benchmarks (elapsed : Nat → ℚ) (r : PyRandom) : BenchResult :=
  ⟨runBench elapsed gridPairs 0 r,
   (runBench elapsed gridPairs 0 r).map (fun tr => tr.tms),
   (runBench elapsed gridPairs 0 r).map (fun tr => tr.line)⟩

/-! ### Helper lemmas about label generation -/

lemma choiceChar_mem (r : PyRandom) :
    (choiceChar r).1 = 'I' ∨ (choiceChar r).1 = 'X' ∨
      (choiceChar r).1 = 'Y' ∨ (choiceChar r).1 = 'Z' := by
  have h : ∀ i : Fin 4,
      IXYZ.toList.getD i.val 'I' = 'I' ∨ IXYZ.toList.getD i.val 'I' = 'X' ∨
        IXYZ.toList.getD i.val 'I' = 'Y' ∨ IXYZ.toList.getD i.val 'I' = 'Z' := by
    decide
  exact h (r.stream r.pos)

lemma choices_succ (r : PyRandom) (count : Nat) :
    choices r (count + 1) =
      ((choiceChar r).1 :: (choices (choiceChar r).2 count).1,
       (choices (choiceChar r).2 count).2) := by
  rw [choices]

lemma choices_length : ∀ (count : Nat) (r : PyRandom),
    ((choices r count).1).length = count := by
  intro count
  induction count with
  | zero => intro r; rfl
  | succ m ih =>
    intro r
    rw [choices_succ]
    simp [ih]

lemma choices_mem : ∀ (count : Nat) (r : PyRandom),
    ∀ c ∈ (choices r count).1,
      c = 'I' ∨ c = 'X' ∨ c = 'Y' ∨ c = 'Z' := by
  intro count
  induction count with
  | zero => intro r c hc; simp [choices] at hc
  | succ m ih =>
    intro r c hc
    rw [choices_succ] at hc
    rcases List.mem_cons.mp hc with h | h
    · subst h; exact choiceChar_mem r
    · exact ih _ c h

lemma randLabelGo_succ (kk m : Nat) (r : PyRandom) :
    randLabelGo kk r (m + 1) =
      (String.mk (choices r kk).1 :: (randLabelGo kk (choices r kk).2 m).1,
       (randLabelGo kk (choices r kk).2 m).2) := by
  rw [randLabelGo]

lemma randLabelGo_length (kk : Nat) : ∀ (m : Nat) (r : PyRandom),
    ((randLabelGo kk r m).1).length = m := by
  intro m
  induction m with
  | zero => intro r; rfl
  | succ m ih =>
    intro r
    rw [randLabelGo_succ]
    simp [ih]

lemma randLabelGo_strings (kk : Nat) : ∀ (m : Nat) (r : PyRandom),
    ∀ s ∈ (randLabelGo kk r m).1,
      s.length = kk ∧ ∀ c ∈ s.toList, c = 'I' ∨ c = 'X' ∨ c = 'Y' ∨ c = 'Z' := by
  intro m
  induction m with
  | zero => intro r s hs; simp [randLabelGo] at hs
  | succ m ih =>
    intro r s hs
    rw [randLabelGo_succ] at hs
    rcases List.mem_cons.mp hs with h | h
    · subst h
      refine ⟨?_, ?_⟩
      · show ((choices r kk).1).length = kk
        exact choices_length kk r
      · intro c hc
        exact choices_mem kk r c hc
    · exact ih _ s h

lemma randLabelGo_zero_k : ∀ (m : Nat) (r : PyRandom),
    (randLabelGo 0 r m).1 = List.replicate m "" := by
  intro m
  induction m with
  | zero => intro r; rfl
  | succ m ih =>
    intro r
    rw [randLabelGo_succ]
    simp only [choices, List.replicate]
    exact congrArg (List.cons "") (ih r)

/-! ### Helper lemmas about the benchmark loop -/

lemma timeitEvents_count (ls : List String) :
    ∀ num : Nat, (timeitEvents ls num).count (Ev.construct ls) = num := by
  intro num
  induction num with
  | zero => rfl
  | succ m ih =>
    rw [timeitEvents]
    simp [stmtEvents, List.count_append, List.count_cons, ih]

lemma runBench_map_kn (e : Nat → ℚ) :
    ∀ (ps : List (Nat × Nat)) (i : Nat) (r : PyRandom),
      (runBench e ps i r).map (fun tr => (tr.k, tr.n)) = ps := by
  intro ps
  induction ps with
  | nil => intro i r; rfl
  | cons p rest ih =>
    obtain ⟨k, n⟩ := p
    intro i r
    rw [runBench]
    simp [time_trial, ih]

lemma runBench_length (e : Nat → ℚ) (ps : List (Nat × Nat)) (i : Nat) (r : PyRandom) :
    (runBench e ps i r).length = ps.length := by
  have h := runBench_map_kn e ps i r
  calc (runBench e ps i r).length
      = ((runBench e ps i r).map (fun tr => (tr.k, tr.n))).length := (List.length_map _ _).symm
    _ = ps.length := by rw [h]

lemma runBench_map_reps (e : Nat → ℚ) :
    ∀ (ps : List (Nat × Nat)) (i : Nat) (r : PyRandom),
      (runBench e ps i r).map (fun tr => tr.reps) = ps.map (fun p => number p.2) := by
  intro ps
  induction ps with
  | nil => intro i r; rfl
  | cons p rest ih =>
    obtain ⟨k, n⟩ := p
    intro i r
    rw [runBench]
    simp [time_trial, ih]

lemma runBench_reps_of_n (e : Nat → ℚ) :
    ∀ (ps : List (Nat × Nat)) (i : Nat) (r : PyRandom),
      (runBench e ps i r).map (fun tr => tr.reps) =
        (runBench e ps i r).map (fun tr => if 10000 ≤ tr.n then 1 else 20) := by
  intro ps
  induction ps with
  | nil => intro i r; rfl
  | cons p rest ih =>
    obtain ⟨k, n⟩ := p
    intro i r
    rw [runBench]
    simp only [List.map_cons, time_trial, number]
    exact congrArg _ (ih _ _)

lemma runBench_map_nreps (e : Nat → ℚ) :
    ∀ (ps : List (Nat × Nat)) (i : Nat) (r : PyRandom),
      (runBench e ps i r).map (fun tr => (tr.n, tr.reps)) =
        ps.map (fun p => (p.2, number p.2)) := by
  intro ps
  induction ps with
  | nil => intro i r; rfl
  | cons p rest ih =>
    obtain ⟨k, n⟩ := p
    intro i r
    rw [runBench]
    simp [time_trial, ih]

lemma runBench_map_tms (e : Nat → ℚ) :
    ∀ (ps : List (Nat × Nat)) (i : Nat) (r : PyRandom),
      (runBench e ps i r).map (fun tr => tr.tms) =
        (runBench e ps i r).map (fun tr => tr.tsec * 1000 / (tr.reps : ℚ)) := by
  intro ps
  induction ps with
  | nil => intro i r; rfl
  | cons p rest ih =>
    obtain ⟨k, n⟩ := p
    intro i r
    rw [runBench]
    simp only [List.map_cons, time_trial]
    exact congrArg _ (ih _ _)

lemma runBench_map_tsec (e : Nat → ℚ) :
    ∀ (ps : List (Nat × Nat)) (i : Nat) (r : PyRandom),
      (runBench e ps i r).map (fun tr => tr.tsec) =
        (List.range ps.length).map (fun j => e (i + j)) := by
  intro ps
  induction ps with
  | nil => intro i r; rfl
  | cons p rest ih =>
    obtain ⟨k, n⟩ := p
    intro i r
    rw [runBench]
    simp only [List.map_cons, time_trial, List.length_cons, List.range_succ_eq_map,
      List.map_map]
    refine congrArg₂ _ (by rw [Nat.add_zero]) ?_
    rw [ih]
    refine congrArg (fun f => List.map f (List.range rest.length)) ?_
    funext j
    show e (i + 1 + j) = e (i + (j + 1))
    congr 1
    omega

lemma runBench_map_line (e : Nat → ℚ) :
    ∀ (ps : List (Nat × Nat)) (i : Nat) (r : PyRandom),
      (runBench e ps i r).map (fun tr => tr.line) =
        List.zipWith
          (fun kn t =>
            "k=" ++ toString kn.1 ++ ", n=" ++ toString kn.2 ++ ", " ++ toString t ++ " ms")
          ps ((runBench e ps i r).map (fun tr => tr.tms)) := by
  intro ps
  induction ps with
  | nil => intro i r; rfl
  | cons p rest ih =>
    obtain ⟨k, n⟩ := p
    intro i r
    rw [runBench]
    simp only [List.map_cons, List.zipWith_cons_cons, time_trial, fmtLine]
    exact congrArg _ (ih _ _)

lemma runBench_line_getD (e : Nat → ℚ) :
    ∀ (ps : List (Nat × Nat)) (i : Nat) (r : PyRandom) (j : Nat), j < ps.length →
      ((runBench e ps i r).map (fun tr => tr.line)).getD j "" =
        "k=" ++ toString (ps.getD j (0, 0)).1 ++ ", n=" ++ toString (ps.getD j (0, 0)).2 ++
          ", " ++ toString (((runBench e ps i r).map (fun tr => tr.tms)).getD j 0) ++ " ms" := by
  intro ps
  induction ps with
  | nil => intro i r j hj; simp at hj
  | cons p rest ih =>
    obtain ⟨k, n⟩ := p
    intro i r j hj
    rw [runBench]
    cases j with
    | zero => simp [time_trial, fmtLine]
    | succ j =>
      simp only [List.map_cons, List.getD_cons_succ]
      exact ih _ _ j (by simpa using hj)

lemma runBench_labels_indep (e1 e2 : Nat → ℚ) :
    ∀ (ps : List (Nat × Nat)) (i1 i2 : Nat) (r : PyRandom),
      (runBench e1 ps i1 r).map (fun tr => tr.labels) =
        (runBench e2 ps i2 r).map (fun tr => tr.labels) := by
  intro ps
  induction ps with
  | nil => intro i1 i2 r; rfl
  | cons p rest ih =>
    obtain ⟨k, n⟩ := p
    intro i1 i2 r
    rw [runBench, runBench]
    simp only [List.map_cons, time_trial]
    exact congrArg _ (ih _ _ _)

lemma runBench_consumption (e : Nat → ℚ) :
    ∀ (ps : List (Nat × Nat)) (i : Nat) (r : PyRandom),
      (runBench e ps i r).map (fun tr => tr.events.count (Ev.construct tr.labels)) =
        (runBench e ps i r).map (fun tr => tr.reps) := by
  intro ps
  induction ps with
  | nil => intro i r; rfl
  | cons p rest ih =>
    obtain ⟨k, n⟩ := p
    intro i r
    rw [runBench]
    simp only [List.map_cons, time_trial]
    rw [timeitEvents_count]
    exact congrArg _ (ih _ _)

lemma runBench_tms_getD_nonneg (e : Nat → ℚ) (he : ∀ j, 0 ≤ e j) :
    ∀ (ps : List (Nat × Nat)) (i : Nat) (r : PyRandom) (j : Nat),
      0 ≤ ((runBench e ps i r).map (fun tr => tr.tms)).getD j 0 := by
  intro ps
  induction ps with
  | nil => intro i r j; simp [runBench]
  | cons p rest ih =>
    obtain ⟨k, n⟩ := p
    intro i r j
    rw [runBench]
    cases j with
    | zero =>
      simp only [List.map_cons, List.getD_cons_zero, time_trial]
      refine div_nonneg (mul_nonneg (he i) (by norm_num)) ?_
      exact Nat.cast_nonneg _
    | succ j =>
      simp only [List.map_cons, List.getD_cons_succ]
      exact ih _ _ j

lemma gridPairs_eq :
    gridPairs =
      [(10, 10), (10, 100), (10, 1000), (10, 5000), (10, 10000), (10, 100000),
       (100, 10), (100, 100), (100, 1000), (100, 5000), (100, 10000), (100, 100000)] := rfl

/-- A concrete generator state used to instantiate universally quantified
theorems: the stream that always draws index 0. -/
def rng0 : PyRandom := ⟨fun _ => (0 : Fin 4), 0⟩

/-! ### The claims -/

/-- Claim C1: for every pair of positive integers `k` and `n`,
`rand_label(k, n)` returns an ordered sequence of exactly `n` strings, each of
exactly length `k`, with every character drawn from the alphabet
`{I, X, Y, Z}`. -/
theorem spec_C1 (r : PyRandom) (k n : Int) (hk : 0 < k) (hn : 0 < n) :
    (((rand_label r k n).1.length : Int) = n) ∧
    ∀ s ∈ (rand_label r k n).1,
      ((s.length : Int) = k) ∧ ∀ c ∈ s.toList, c = 'I' ∨ c = 'X' ∨ c = 'Y' ∨ c = 'Z' := by
  constructor
  · show (((randLabelGo k.toNat r n.toNat).1.length : Int) = n)
    rw [randLabelGo_length]
    exact Int.toNat_of_nonneg hn.le
  · intro s hs
    have h := randLabelGo_strings k.toNat n.toNat r s hs
    refine ⟨?_, h.2⟩
    rw [h.1]
    exact Int.toNat_of_nonneg hk.le

/-- Witness for C1 at `k = 2`, `n = 3`. -/
theorem spec_C1_witness :
    (((rand_label rng0 2 3).1.length : Int) = 3) ∧
    ∀ s ∈ (rand_label rng0 2 3).1,
      ((s.length : Int) = 2) ∧ ∀ c ∈ s.toList, c = 'I' ∨ c = 'X' ∨ c = 'Y' ∨ c = 'Z' :=
  spec_C1 rng0 2 3 (by decide) (by decide)

/-- Claim C2: `run_benchmarks()` produces exactly 12 timing samples, one per
`(k, n)` combination, in the fixed nested iteration order (`k = 10` then
`k = 100`, each with `n` in `10, 100, 1000, 5000, 10000, 100000`), and
returns that full ordered sequence. -/
theorem spec_C2 (e : Nat → ℚ) (r : PyRandom) :
    ((run_benchmarks e r).trials.map (fun tr => (tr.k, tr.n)) =
      [(10, 10), (10, 100), (10, 1000), (10, 5000), (10, 10000), (10, 100000),
       (100, 10), (100, 100), (100, 1000), (100, 5000), (100, 10000), (100, 100000)]) ∧
    ((run_benchmarks e r).times.length = 12) ∧
    ((run_benchmarks e r).times = (run_benchmarks e r).trials.map (fun tr => tr.tms)) := by
  refine ⟨?_, ?_, rfl⟩
  · show (runBench e gridPairs 0 r).map (fun tr => (tr.k, tr.n)) = _
    rw [runBench_map_kn]
    exact gridPairs_eq
  · show ((runBench e gridPairs 0 r).map (fun tr => tr.tms)).length = 12
    rw [List.length_map, runBench_length]
    rfl

/-- Claim C3: for every grid combination the timed trial uses exactly 1
repetition when `n ≥ 10000` and exactly 20 repetitions when `n < 10000`; the
repetition count is a function of `n` alone, never of `k`. -/
theorem spec_C3 (e : Nat → ℚ) (r : PyRandom) :
    ((run_benchmarks e r).trials.map (fun tr => tr.reps) =
      (run_benchmarks e r).trials.map (fun tr => if 10000 ≤ tr.n then 1 else 20)) ∧
    ((run_benchmarks e r).trials.map (fun tr => (tr.n, tr.reps)) =
      [(10, 20), (100, 20), (1000, 20), (5000, 20), (10000, 1), (100000, 1),
       (10, 20), (100, 20), (1000, 20), (5000, 20), (10000, 1), (100000, 1)]) := by
  constructor
  · show (runBench e gridPairs 0 r).map _ = (runBench e gridPairs 0 r).map _
    exact runBench_reps_of_n e gridPairs 0 r
  · show (runBench e gridPairs 0 r).map _ = _
    rw [runBench_map_nreps]
    rfl

/-- Claim C4: two runs of the full benchmark grid, each starting from the
random source freshly seeded to the same fixed value 123, generate identical
label sequences for every grid combination, whatever the observed wall-clock
times of each run. -/
theorem spec_C4 (F : Nat → Nat → Fin 4) (e1 e2 : Nat → ℚ) :
    (run_benchmarks e1 (seedRandom F 123)).trials.map (fun tr => tr.labels) =
      (run_benchmarks e2 (seedRandom F 123)).trials.map (fun tr => tr.labels) := by
  show (runBench e1 gridPairs 0 _).map _ = (runBench e2 gridPairs 0 _).map _
  exact runBench_labels_indep e1 e2 gridPairs 0 0 _

/-- Counterexample to C5 as stated: at grid combination `k = 10`, `n = 10`
(repetition count 20) the trial's label batch is consumed 20 times, not
exactly once, by the external constructor call. -/
theorem spec_C5_counterexample :
    ((time_trial 0 rng0 10 10).1.events.count
        (Ev.construct (time_trial 0 rng0 10 10).1.labels) = 20) ∧
    ¬ ((time_trial 0 rng0 10 10).1.events.count
        (Ev.construct (time_trial 0 rng0 10 10).1.labels) = 1) := by
  constructor
  · simp only [time_trial]
    rw [timeitEvents_count]
    rfl
  · simp only [time_trial]
    rw [timeitEvents_count]
    decide

/-- Claim C5 (amended): for every benchmark trial, the label batch generated
for that trial is consumed by the external constructor call exactly once per
timed repetition — `number(n)` times in total for the trial. -/
theorem spec_C5_amended (e : Nat → ℚ) (r : PyRandom) :
    (run_benchmarks e r).trials.map (fun tr => tr.events.count (Ev.construct tr.labels)) =
      (run_benchmarks e r).trials.map (fun tr => tr.reps) := by
  show (runBench e gridPairs 0 r).map _ = (runBench e gridPairs 0 r).map _
  exact runBench_consumption e gridPairs 0 r

/-- Claim C6: for every grid combination the reported duration equals the
total elapsed wall-clock seconds returned by the timer, times 1000, divided by
the repetition count; and the elapsed values are exactly the oracle's 12
successive answers. -/
theorem spec_C6 (e : Nat → ℚ) (r : PyRandom) :
    ((run_benchmarks e r).times =
      (run_benchmarks e r).trials.map (fun tr => tr.tsec * 1000 / (tr.reps : ℚ))) ∧
    ((run_benchmarks e r).trials.map (fun tr => tr.tsec) = (List.range 12).map e) := by
  constructor
  · show (runBench e gridPairs 0 r).map _ = (runBench e gridPairs 0 r).map _
    exact runBench_map_tms e gridPairs 0 r
  · show (runBench e gridPairs 0 r).map _ = _
    rw [runBench_map_tsec]
    show (List.range 12).map (fun j => e (0 + j)) = (List.range 12).map e
    simp only [Nat.zero_add]

/-- Claim C7: `run_benchmarks()` prints exactly one line per grid combination,
in grid iteration order, of the form `k=<k>, n=<n>, <duration> ms`, the
duration rendered by the default numeric-to-string conversion. -/
theorem spec_C7 (e : Nat → ℚ) (r : PyRandom) :
    ((run_benchmarks e r).lines =
      List.zipWith
        (fun kn t =>
          "k=" ++ toString kn.1 ++ ", n=" ++ toString kn.2 ++ ", " ++ toString t ++ " ms")
        [(10, 10), (10, 100), (10, 1000), (10, 5000), (10, 10000), (10, 100000),
         (100, 10), (100, 100), (100, 1000), (100, 5000), (100, 10000), (100, 100000)]
        ((run_benchmarks e r).times)) ∧
    ((run_benchmarks e r).lines.length = 12) := by
  constructor
  · show (runBench e gridPairs 0 r).map (fun tr => tr.line) =
      List.zipWith _ _ ((runBench e gridPairs 0 r).map (fun tr => tr.tms))
    rw [runBench_map_line, gridPairs_eq]
  · show ((runBench e gridPairs 0 r).map (fun tr => tr.line)).length = 12
    rw [List.length_map, runBench_length]
    rfl

/-- Claim C8: every duration reported by `run_benchmarks()` is non-negative,
provided the timer's elapsed readings are non-negative (in this exact-rational
embedding every value is automatically finite). -/
theorem spec_C8 (e : Nat → ℚ) (r : PyRandom) (he : ∀ i, 0 ≤ e i) :
    ∀ i, 0 ≤ (run_benchmarks e r).times.getD i 0 := by
  intro i
  show 0 ≤ ((runBench e gridPairs 0 r).map (fun tr => tr.tms)).getD i 0
  exact runBench_tms_getD_nonneg e he gridPairs 0 r i

/-- Witness for C8 with the constant oracle 1. -/
theorem spec_C8_witness : 0 ≤ (run_benchmarks (fun _ => 1) rng0).times.getD 0 0 :=
  spec_C8 (fun _ => 1) rng0 (fun _ => zero_le_one) 0

/-- Claim C9: `rand_label` is total over all integer inputs: for `n ≤ 0` it
returns the empty sequence, and for `n > 0` with `k ≤ 0` it returns `n` empty
strings; no error is raised for non-positive arguments. -/
theorem spec_C9 (r : PyRandom) (k n : Int) :
    (n ≤ 0 → (rand_label r k n).1 = []) ∧
    (0 < n → k ≤ 0 → (rand_label r k n).1 = List.replicate n.toNat "") := by
  constructor
  · intro hn
    show (randLabelGo k.toNat r n.toNat).1 = []
    rw [Int.toNat_of_nonpos hn]
    rfl
  · intro _ hk
    show (randLabelGo k.toNat r n.toNat).1 = List.replicate n.toNat ""
    rw [Int.toNat_of_nonpos hk]
    exact randLabelGo_zero_k n.toNat r

/-- Witness for C9 at `n = -2` and at `k = -1`, `n = 2`. -/
theorem spec_C9_witness :
    ((rand_label rng0 5 (-2)).1 = []) ∧ ((rand_label rng0 (-1) 2).1 = ["", ""]) :=
  ⟨(spec_C9 rng0 5 (-2)).1 (by decide), (spec_C9 rng0 (-1) 2).2 (by decide) (by decide)⟩

/-- Claim C10: the sequence returned by `run_benchmarks()` contains exactly
the duration values printed to standard output, in the same order: the `j`-th
printed line carries the `j`-th appended duration. -/
theorem spec_C10 (e : Nat → ℚ) (r : PyRandom) (j : Nat) (hj : j < 12) :
    (run_benchmarks e r).lines.getD j "" =
      "k=" ++ toString ((gridPairs.getD j (0, 0)).1) ++ ", n=" ++
        toString ((gridPairs.getD j (0, 0)).2) ++ ", " ++
        toString ((run_benchmarks e r).times.getD j 0) ++ " ms" := by
  show ((runBench e gridPairs 0 r).map (fun tr => tr.line)).getD j "" = _
  exact runBench_line_getD e gridPairs 0 r j hj

/-- Witness for C10 at `j = 0` with the constant oracle 1. -/
theorem spec_C10_witness :
    (run_benchmarks (fun _ => 1) rng0).lines.getD 0 "" =
      "k=" ++ toString ((gridPairs.getD 0 (0, 0)).1) ++ ", n=" ++
        toString ((gridPairs.getD 0 (0, 0)).2) ++ ", " ++
        toString ((run_benchmarks (fun _ => 1) rng0).times.getD 0 0) ++ " ms" :=
  spec_C10 (fun _ => 1) rng0 0 (by decide)
